import Mathlib

/-!
Verification development for the collaborative virtual-painter client
(`VirtualPainter.py`).  The Python source is shallowly embedded below:

* pixels, canvases and the `cv2.line` raster mutation,
* the JSON wire records built by `send_drawing` and consumed by
  `receive_drawings` (`encode` / `decode`),
* the bounded-retry connection loop `connect_to_server`,
* the session state (`connected`, `local_mode`, `retry_count`, the shared
  canvas and its published snapshot `displayBuffer`) and the events that
  drive it (`send_drawing` calls, inbound messages, timeouts, connection
  closure),
* the per-pixel compositing performed in `run`
  (`cvtColor` / `threshold` / `bitwise_and` / `bitwise_or`),
* `update_current_brush`, and
* a small interleaving model of the `drawLock`-guarded canvas mutation.
-/

namespace VP

/-- A BGR pixel, channel values as naturals (uint8 in the source). -/
structure Pixel where
  b : Nat
  g : Nat
  r : Nat
deriving DecidableEq, Repr

/-- The all-zero (black) pixel: the initial canvas content
(`np.zeros((720, 1280, 3))`). -/
def blackPix : Pixel := ⟨0, 0, 0⟩

/-- A raster canvas, as a total pixel map over integer coordinates
(out-of-range geometry is clipped silently by `cv2.line`, which the
total-function model reflects). -/
def Canvas : Type := Int → Int → Pixel

/-- The blank canvas created by `init_drawing_settings`. -/
def blankCanvas : Canvas := fun _ _ => blackPix

/-- Whether pixel `(x, y)` is covered by the thick segment from `p1` to
`p2` with thickness `th`: its distance to the segment is at most `th / 2`,
computed exactly in integer arithmetic.  This is the concrete model of the
pixel coverage of `cv2.line`. -/
def onSeg (x1 y1 x2 y2 th x y : Int) : Bool :=
  let dx := x2 - x1
  let dy := y2 - y1
  let wx := x - x1
  let wy := y - y1
  let len2 := dx * dx + dy * dy
  let t := wx * dx + wy * dy
  if t ≤ 0 ∨ len2 = 0 then
    decide (4 * (wx * wx + wy * wy) ≤ th * th)
  else if len2 ≤ t then
    let ux := x - x2
    let uy := y - y2
    decide (4 * (ux * ux + uy * uy) ≤ th * th)
  else
    let c := wx * dy - wy * dx
    decide (4 * c * c ≤ th * th * len2)

/-- Model of `cv2.line(canvas, (x1, y1), (x2, y2), color, thickness)`:
every covered pixel is set to `col`, every other pixel keeps its value. -/
def cvLine (c : Canvas) (x1 y1 x2 y2 : Int) (col : Pixel) (th : Int) : Canvas :=
  fun x y => if onSeg x1 y1 x2 y2 th x y then col else c x y

/-- JSON values, the wire format produced by `json.dumps` and parsed by
`json.loads` (only the constructors the protocol can carry matter). -/
inductive Json where
  | jnull : Json
  | jbool : Bool → Json
  | jint : Int → Json
  | jstr : String → Json
  | jarr : List Json → Json
  | jobj : List (String × Json) → Json

/-- First binding of a key in a JSON object (`dict` access / `.get`). -/
def jsonLookup : List (String × Json) → String → Option Json
  | [], _ => none
  | (k, v) :: rest, key => if k = key then some v else jsonLookup rest key

/-- A local stroke as assembled by `send_drawing`: endpoints, BGR color,
thickness, and the `datetime.now().timestamp()` string. -/
structure Stroke where
  x1 : Int
  y1 : Int
  x2 : Int
  y2 : Int
  color : Pixel
  thickness : Int
  timestamp : String
deriving DecidableEq, Repr

/-- The fields the receive path actually extracts from an inbound draw
record: endpoints, color and thickness.  `receive_drawings` never reads
the `timestamp` field. -/
structure DrawCmd where
  x1 : Int
  y1 : Int
  x2 : Int
  y2 : Int
  color : Pixel
  thickness : Int
deriving DecidableEq, Repr

/-- The wire record built by `send_drawing` (the `data` dict, in its
insertion order): `type`, the four integer coordinates, the color as a
three-element list, the integer thickness, and the timestamp string. -/
def encode (s : Stroke) : Json :=
  .jobj [("type", .jstr "draw"),
         ("x1", .jint s.x1), ("y1", .jint s.y1),
         ("x2", .jint s.x2), ("y2", .jint s.y2),
         ("color", .jarr [.jint s.color.b, .jint s.color.g, .jint s.color.r]),
         ("thickness", .jint s.thickness),
         ("timestamp", .jstr s.timestamp)]

/-- Integer-like view of a JSON value, as accepted for the point
coordinates and the thickness of the `cv2.line` call in
`receive_drawings`: Python's `bool` is an `int` subclass, so booleans
pass wherever `cv2` wants an integer; anything else raises before the
canvas is touched. -/
def asCoord : Json → Option Int
  | .jint n => some n
  | .jbool b => some (if b then 1 else 0)
  | _ => none

/-- One color channel as the uint8 raster will see it: any integer-like
value is accepted by `cv2`'s Scalar conversion (bools as 0/1), and a
negative value saturates to 0 at the canvas write. -/
def asChan : Json → Option Nat
  | .jint n => some n.toNat
  | .jbool b => some (if b then 1 else 0)
  | _ => none

/-- All channels of a color sequence, or `none` if any item is
non-numeric. -/
def chanList : List Json → Option (List Nat)
  | [] => some []
  | j :: rest =>
    match asChan j, chanList rest with
    | some v, some vs => some (v :: vs)
    | _, _ => none

/-- The color argument as `cv2.line` accepts it: `tuple(data['color'])`
must be a sequence of at most four numeric values (a `cv2` Scalar);
missing channels default to 0 and the 3-channel canvas uses the first
three.  A non-sequence, a sequence longer than four, or a non-numeric
item raises before the canvas is touched. -/
def colorOf : Json → Option Pixel
  | .jarr items =>
    if items.length ≤ 4 then
      match chanList items with
      | some vs => some ⟨vs.getD 0 0, vs.getD 1 0, vs.getD 2 0⟩
      | none => none
    else none
  | _ => none

/-- The implicit decoder of `receive_drawings`: the message must parse to
an object whose `type` is `"draw"` (otherwise no stroke is produced), the
four coordinates and the thickness must be present and integer-like
(ints or bools), and the color must be present and a numeric sequence of
at most four elements (`cv2.line` pads missing channels with 0 and
saturates negative channels to 0 on the uint8 write); a message failing
any of these raises — or is skipped — before the canvas is touched. -/
def decode (j : Json) : Option DrawCmd :=
  match j with
  | .jobj fields =>
    match jsonLookup fields "type" with
    | some (.jstr tag) =>
      if tag = "draw" then
      match jsonLookup fields "x1", jsonLookup fields "y1",
            jsonLookup fields "x2", jsonLookup fields "y2" with
      | some jx1, some jy1, some jx2, some jy2 =>
        match asCoord jx1, asCoord jy1, asCoord jx2, asCoord jy2 with
        | some a, some b, some c, some d =>
          match jsonLookup fields "color", jsonLookup fields "thickness" with
          | some jc, some jth =>
            match colorOf jc, asCoord jth with
            | some col, some th => some ⟨a, b, c, d, col, th⟩
            | _, _ => none
          | _, _ => none
        | _, _, _, _ => none
      | _, _, _, _ => none
      else none
    | _ => none
  | _ => none

/-- The stroke geometry carried by a stroke, as a `DrawCmd`. -/
def Stroke.cmd (s : Stroke) : DrawCmd :=
  ⟨s.x1, s.y1, s.x2, s.y2, s.color, s.thickness⟩

/-- A stroke reassembled from decoded fields and a timestamp. -/
def strokeOf (d : DrawCmd) (ts : String) : Stroke :=
  ⟨d.x1, d.y1, d.x2, d.y2, d.color, d.thickness, ts⟩

/-- `self.max_retries = 3` (`init_network`). -/
def maxRetries : Nat := 3

/-- Outcome of one `connect_to_server` invocation: whether it returned
`True`, the `self.retry_count` it leaves behind, how many connection
attempts it made, and how many 1-second backoff sleeps it performed. -/
structure ConnOut where
  success : Bool
  retryCount : Nat
  attempts : Nat
  sleeps : Nat
deriving DecidableEq, Repr

/-- The `while self.retry_count < self.max_retries` loop body, with
`fuel = maxRetries - rc` iterations left; `outcomes k` tells whether the
attempt made while `retry_count = k` succeeds (the endpoint's behavior).
A successful attempt returns `True` at once; a failed one increments
`retry_count` and sleeps one second. -/
def connectGo (outcomes : Nat → Bool) : Nat → Nat → ConnOut
  | 0, rc => ⟨false, rc, 0, 0⟩
  | fuel + 1, rc =>
    if outcomes rc then ⟨true, rc, 1, 0⟩
    else
      let rest := connectGo outcomes fuel (rc + 1)
      ⟨rest.success, rest.retryCount, rest.attempts + 1, rest.sleeps + 1⟩

/-- One invocation of `connect_to_server`, entered with
`self.retry_count = rc`. -/
def connectFrom (outcomes : Nat → Bool) (rc : Nat) : ConnOut :=
  connectGo outcomes (maxRetries - rc) rc

/-- The mutable client state the network/drawing code touches: the shared
canvas `imgCanvas`, its published snapshot `displayBuffer`, the flags
`local_mode` and `connected`, whether `self.ws` holds a socket object
(`ws is not None`), the accumulated `retry_count`, and the trace of wire
records handed to `ws.send` (network output). -/
structure Session where
  canvas : Canvas
  display : Canvas
  localMode : Bool
  connected : Bool
  wsOpen : Bool
  retryCount : Nat
  sent : List Json

/-- The events that drive a session after startup: a `send_drawing` call
from the drawing loop (with the timestamp the encoder would stamp), an
inbound message, an unparseable inbound message, a receive timeout, and
the connection closing (with the endpoint behavior `outcomes` the ensuing
`connect_to_server` reconnect sees). -/
inductive Op where
  | send (x1 y1 x2 y2 : Int) (col : Pixel) (th : Int) (ts : String) : Op
  | recvMsg (j : Json) : Op
  | recvUnparseable : Op
  | recvTimeout : Op
  | recvClosed (outcomes : Nat → Bool) : Op

/-- `send_drawing`: under the lock, draw the segment into `imgCanvas` and
republish `displayBuffer`; then, only when `not local_mode and ws and
connected`, encode the stroke and dispatch it. -/
def sendDrawing (s : Session) (x1 y1 x2 y2 : Int) (col : Pixel) (th : Int)
    (ts : String) : Session :=
  let c := cvLine s.canvas x1 y1 x2 y2 col th
  { s with
    canvas := c
    display := c
    sent :=
      if ¬s.localMode ∧ s.wsOpen ∧ s.connected then
        s.sent ++ [encode ⟨x1, y1, x2, y2, col, th, ts⟩]
      else s.sent }

/-- One iteration of `receive_drawings` handling event `op` (the loop body
runs only when `self.ws and self.connected`; otherwise it spins).  A
well-formed draw message mutates the canvas under the lock and republishes
the snapshot; a non-draw or malformed message is dropped; a timeout is a
no-op; a closed connection clears `connected` and immediately re-invokes
`connect_to_server`. -/
def step (s : Session) : Op → Session
  | .send x1 y1 x2 y2 col th ts => sendDrawing s x1 y1 x2 y2 col th ts
  | .recvMsg j =>
    if s.wsOpen ∧ s.connected then
      match decode j with
      | some d =>
        let c := cvLine s.canvas d.x1 d.y1 d.x2 d.y2 d.color d.thickness
        { s with canvas := c, display := c }
      | none => s
    else s
  | .recvUnparseable => s
  | .recvTimeout => s
  | .recvClosed outcomes =>
    if s.wsOpen ∧ s.connected then
      let r := connectFrom outcomes s.retryCount
      { s with
        connected := r.success
        wsOpen := s.wsOpen || r.success
        retryCount := r.retryCount }
    else s

/-- Session startup (`run`): a fresh state, one initial
`connect_to_server` invocation from `retry_count = 0`, and
`local_mode = not connect_to_server()`. -/
def startSession (outcomes : Nat → Bool) : Session :=
  let r := connectFrom outcomes 0
  { canvas := blankCanvas
    display := blankCanvas
    localMode := !r.success
    connected := r.success
    wsOpen := r.success
    retryCount := r.retryCount
    sent := [] }

/-- A whole session: startup followed by a sequence of events. -/
def runSession (outcomes : Nat → Bool) (ops : List Op) : Session :=
  ops.foldl step (startSession outcomes)

/-- The brush identifiers of `update_current_brush`. -/
inductive Brush where
  | pink | blue | green | eraser
deriving DecidableEq, Repr

/-- The header images loaded by `init_header_images`, identified by which
one `current_header` points at. -/
inductive Header where
  | pink | blue | green | eraser
deriving DecidableEq, Repr

/-- The drawing-selection state `update_current_brush` reads and writes:
`drawColor`, `current_brush` and `current_header`. -/
structure BrushState where
  drawColor : Pixel
  currentBrush : Brush
  currentHeader : Header
deriving DecidableEq, Repr

/-- `update_current_brush(x1)`: the `if/elif` chain over the header's
selection bands; an `x1` in no band leaves the state untouched. -/
def updateCurrentBrush (x1 : Int) (st : BrushState) : BrushState :=
  if 250 < x1 ∧ x1 < 450 then ⟨⟨189, 189, 103⟩, .pink, .pink⟩
  else if 550 < x1 ∧ x1 < 750 then ⟨⟨86, 48, 189⟩, .blue, .blue⟩
  else if 800 < x1 ∧ x1 < 1000 then ⟨⟨17, 141, 255⟩, .green, .green⟩
  else if 1050 < x1 ∧ x1 < 1200 then ⟨⟨0, 0, 0⟩, .eraser, .eraser⟩
  else st

/-- OpenCV's fixed-point BGR-to-gray conversion (`cv2.cvtColor` with
`COLOR_BGR2GRAY`): `(4899 R + 9617 G + 1868 B + 8192) >> 14`. -/
def gray (p : Pixel) : Nat :=
  (4899 * p.r + 9617 * p.g + 1868 * p.b + 8192) / 16384

/-- The per-pixel compositing of `run` (lines building the displayed
frame): `threshold(gray, 50, 255, BINARY_INV)` gives mask 0 where the
canvas pixel's gray value exceeds 50 and 255 elsewhere; the live pixel is
ANDed with the mask and ORed with the canvas pixel. -/
def composePix (live cp : Pixel) : Pixel :=
  let m : Nat := if 50 < gray cp then 0 else 255
  ⟨(live.b &&& m) ||| cp.b, (live.g &&& m) ||| cp.g, (live.r &&& m) ||| cp.r⟩

/-- Frame-level compositing: the per-pixel rule applied independently at
every coordinate, a pure function of the live frame and the snapshot. -/
def compose (live snapshot : Canvas) : Canvas :=
  fun x y => composePix (live x y) (snapshot x y)

/-- The local drawing path: the raster mutation `send_drawing` performs
under the lock for a locally originated stroke. -/
def localApply (c : Canvas) (s : Stroke) : Canvas :=
  cvLine c s.x1 s.y1 s.x2 s.y2 s.color s.thickness

/-- The remote drawing path: the raster mutation `receive_drawings`
performs for an inbound wire record (nothing when the record decodes to no
stroke). -/
def remoteApply (c : Canvas) (j : Json) : Canvas :=
  match decode j with
  | some d => cvLine c d.x1 d.y1 d.x2 d.y2 d.color d.thickness
  | none => c

/-- The two concurrent activities that run `applyStroke` on the shared
canvas: the drawing loop (`send_drawing`) and the receive loop
(`receive_drawings`). -/
inductive Task where
  | drawing | receiving
deriving DecidableEq, Repr

/-- Where a task stands with respect to its `async with self.drawLock`
critical section.  The `cv2.line` raster write is split into two
sub-writes (`halfA`, `halfB`) so that the intermediate, half-drawn raster
state is expressible; `published` separates the `displayBuffer` republish
from the lock release. -/
inductive Phase where
  | idle : Phase
  | locked (d : DrawCmd) : Phase
  | halfway (d : DrawCmd) : Phase
  | drawn (d : DrawCmd) : Phase
  | published (d : DrawCmd) : Phase
deriving DecidableEq, Repr

/-- First sub-write of the segment raster: the half from `(x1, y1)` to
the midpoint. -/
def halfA (d : DrawCmd) (c : Canvas) : Canvas :=
  cvLine c d.x1 d.y1 ((d.x1 + d.x2) / 2) ((d.y1 + d.y2) / 2) d.color d.thickness

/-- Second sub-write: the half from the midpoint to `(x2, y2)`. -/
def halfB (d : DrawCmd) (c : Canvas) : Canvas :=
  cvLine c ((d.x1 + d.x2) / 2) ((d.y1 + d.y2) / 2) d.x2 d.y2 d.color d.thickness

/-- A complete `applyStroke` raster mutation: both sub-writes. -/
def applyCmd (d : DrawCmd) (c : Canvas) : Canvas :=
  halfB d (halfA d c)

/-- The canvas after a whole number of completely applied strokes. -/
def applyAll (l : List DrawCmd) : Canvas :=
  l.foldl (fun c d => applyCmd d c) blankCanvas

/-- A canvas that shows only whole strokes — never a half-drawn one. -/
def CompleteCanvas (c : Canvas) : Prop :=
  ∃ l : List DrawCmd, c = applyAll l

/-- Shared state of the two loops: the canvas, the published snapshot
(`displayBuffer`), the `drawLock` owner, and each task's phase. -/
structure LockState where
  canvas : Canvas
  snap : Canvas
  lock : Option Task
  ph : Task → Phase

/-- Pointwise phase update. -/
def setPh (f : Task → Phase) (t : Task) (p : Phase) : Task → Phase :=
  fun u => if u = t then p else f u

/-- The initial shared state: blank canvas, blank snapshot, lock free,
both tasks outside their critical sections. -/
def initLock : LockState :=
  ⟨blankCanvas, blankCanvas, none, fun _ => .idle⟩

/-- Interleaving semantics of the two `drawLock`-guarded canvas mutations:
a task may acquire the free lock with any stroke, perform the two raster
sub-writes, republish the snapshot, and release.  Any interleaving of the
two tasks' steps is allowed. -/
inductive LStep : LockState → LockState → Prop where
  | acquire (σ : LockState) (t : Task) (d : DrawCmd) :
      σ.lock = none → σ.ph t = .idle →
      LStep σ { σ with lock := some t, ph := setPh σ.ph t (.locked d) }
  | draw1 (σ : LockState) (t : Task) (d : DrawCmd) :
      σ.ph t = .locked d →
      LStep σ { σ with canvas := halfA d σ.canvas, ph := setPh σ.ph t (.halfway d) }
  | draw2 (σ : LockState) (t : Task) (d : DrawCmd) :
      σ.ph t = .halfway d →
      LStep σ { σ with canvas := halfB d σ.canvas, ph := setPh σ.ph t (.drawn d) }
  | publish (σ : LockState) (t : Task) (d : DrawCmd) :
      σ.ph t = .drawn d →
      LStep σ { σ with snap := σ.canvas, ph := setPh σ.ph t (.published d) }
  | release (σ : LockState) (t : Task) (d : DrawCmd) :
      σ.ph t = .published d →
      LStep σ { σ with lock := none, ph := setPh σ.ph t .idle }

/-- States reachable by interleaving the two loops from startup. -/
def ReachL (σ : LockState) : Prop :=
  Relation.ReflTransGen LStep initLock σ

/-- The inductive invariant: (1) a task inside its critical section owns
the lock; (2) while a task is halfway through a raster write the canvas is
that half-write over complete strokes; (3) with no task halfway, the
canvas shows whole strokes only; (4) the published snapshot always shows
whole strokes only. -/
def LockInv (σ : LockState) : Prop :=
  (∀ t, σ.ph t ≠ .idle → σ.lock = some t) ∧
  (∀ t d, σ.ph t = .halfway d → ∃ l, σ.canvas = halfA d (applyAll l)) ∧
  ((∀ t d, σ.ph t ≠ .halfway d) → CompleteCanvas σ.canvas) ∧
  CompleteCanvas σ.snap

/-! ## Helper lemmas -/

/-- Decoding a color channel that was serialized from a natural. -/
theorem asChan_cast (n : Nat) : asChan (.jint (n : Int)) = some n := by
  simp [asChan]

/-- The decoder recovers exactly the geometry, color and thickness of an
encoded stroke (and nothing else: `DrawCmd` has no timestamp field). -/
theorem decode_encode (s : Stroke) : decode (encode s) = some s.cmd := by
  simp [decode, encode, jsonLookup, asCoord, colorOf, chanList, asChan_cast,
        Stroke.cmd]

/-- Exact value of the retry loop when every attempt fails: with `fuel`
iterations left it fails, makes `fuel` attempts and `fuel` backoff sleeps,
and leaves the counter incremented by `fuel`. -/
theorem connectGo_allFail (fuel rc : Nat) :
    connectGo (fun _ => false) fuel rc = ⟨false, rc + fuel, fuel, fuel⟩ := by
  induction fuel generalizing rc with
  | zero => simp [connectGo]
  | succ f ih => simp [connectGo, ih (rc + 1)]; omega

/-- Bookkeeping of one retry loop run: the final counter is the initial
one plus the number of backoff sleeps, every failed attempt sleeps once
(`sleeps ≤ attempts ≤ fuel`), and the counter never decreases. -/
theorem connectGo_spec (o : Nat → Bool) (fuel rc : Nat) :
    (connectGo o fuel rc).retryCount = rc + (connectGo o fuel rc).sleeps ∧
    (connectGo o fuel rc).sleeps ≤ fuel ∧
    (connectGo o fuel rc).attempts ≤ fuel := by
  induction fuel generalizing rc with
  | zero => simp [connectGo]
  | succ f ih =>
    by_cases h : o rc
    · simp [connectGo, h]
    · have := ih (rc + 1)
      simp [connectGo, h]
      omega

/-- `connect_to_server` never leaves the counter above
`max(retry_count, max_retries)` and never decreases it. -/
theorem connectFrom_bounds (o : Nat → Bool) (rc : Nat) :
    rc ≤ (connectFrom o rc).retryCount ∧
    (connectFrom o rc).retryCount ≤ max rc maxRetries ∧
    (connectFrom o rc).attempts ≤ maxRetries - rc := by
  have h := connectGo_spec o (maxRetries - rc) rc
  unfold connectFrom
  omega

/-- `local_mode` is assigned only at startup: no session event changes
it. -/
theorem step_localMode (s : Session) (op : Op) :
    (step s op).localMode = s.localMode := by
  cases op with
  | send x1 y1 x2 y2 col th ts => rfl
  | recvMsg j =>
    by_cases h : s.wsOpen ∧ s.connected
    · simp [step, h]
      cases decode j <;> rfl
    · simp [step, h]
  | recvUnparseable => rfl
  | recvTimeout => rfl
  | recvClosed o =>
    by_cases h : s.wsOpen ∧ s.connected <;> simp [step, h]

/-- `local_mode` is unchanged across any sequence of session events. -/
theorem foldl_localMode (ops : List Op) (s : Session) :
    (ops.foldl step s).localMode = s.localMode := by
  induction ops generalizing s with
  | nil => rfl
  | cons op rest ih => rw [List.foldl_cons, ih, step_localMode]

/-- No session event decreases `retry_count`, and events keep it within
the `max_retries` budget. -/
theorem step_retryCount (s : Session) (op : Op) :
    s.retryCount ≤ (step s op).retryCount ∧
    (s.retryCount ≤ maxRetries → (step s op).retryCount ≤ maxRetries) := by
  cases op with
  | send x1 y1 x2 y2 col th ts => exact ⟨le_refl _, fun h => h⟩
  | recvMsg j =>
    by_cases h : s.wsOpen ∧ s.connected
    · simp [step, h]
      cases decode j <;> simp
    · simp [step, h]
  | recvUnparseable => exact ⟨le_refl _, fun h => h⟩
  | recvTimeout => exact ⟨le_refl _, fun h => h⟩
  | recvClosed o =>
    by_cases h : s.wsOpen ∧ s.connected
    · have hb := connectFrom_bounds o s.retryCount
      simp [step, h]
      omega
    · simp [step, h]

/-- Appending one completed stroke to a complete canvas. -/
theorem applyAll_concat (l : List DrawCmd) (d : DrawCmd) :
    applyAll (l ++ [d]) = applyCmd d (applyAll l) := by
  simp [applyAll, List.foldl_append]

/-- The invariant holds initially. -/
theorem lockInv_init : LockInv initLock := by
  refine ⟨?_, ?_, ?_, ⟨[], rfl⟩⟩
  · intro t ht
    exact absurd rfl ht
  · intro t d hd
    exact Phase.noConfusion hd
  · intro _
    exact ⟨[], rfl⟩

/-- Two tasks both inside their critical sections coincide. -/
theorem lock_unique (σ : LockState)
    (hmx : ∀ t, σ.ph t ≠ .idle → σ.lock = some t)
    (t u : Task) (ht : σ.ph t ≠ .idle) (hu : σ.ph u ≠ .idle) : t = u := by
  have h1 := hmx t ht
  have h2 := hmx u hu
  rw [h1] at h2
  exact Option.some.inj h2

/-- Every interleaving step preserves the invariant. -/
theorem lockInv_step (σ σ' : LockState) (hs : LStep σ σ') (hinv : LockInv σ) :
    LockInv σ' := by
  obtain ⟨hmx, hhalf, hcomp, hsnap⟩ := hinv
  cases hs with
  | acquire t d hlock hidle =>
    have nohalf : ∀ u e, σ.ph u ≠ .halfway e := by
      intro u e he
      have := hmx u (by rw [he]; exact fun h => Phase.noConfusion h)
      rw [hlock] at this
      exact Option.noConfusion this
    refine ⟨?_, ?_, ?_, hsnap⟩
    · intro u hu
      by_cases hut : u = t
      · subst hut; rfl
      · simp only [setPh, if_neg hut] at hu
        have := hmx u hu
        rw [hlock] at this
        exact Option.noConfusion this
    · intro u e he
      by_cases hut : u = t
      · subst hut
        simp only [setPh, if_pos rfl] at he
        exact Phase.noConfusion he
      · simp only [setPh, if_neg hut] at he
        exact absurd he (nohalf u e)
    · intro _
      exact hcomp nohalf
  | draw1 t d hph =>
    have htne : σ.ph t ≠ .idle := by rw [hph]; exact fun h => Phase.noConfusion h
    have nohalf : ∀ u e, σ.ph u ≠ .halfway e := by
      intro u e he
      have hut : u = t := lock_unique σ hmx u t
        (by rw [he]; exact fun h => Phase.noConfusion h) htne
      subst hut
      rw [hph] at he
      exact Phase.noConfusion he
    refine ⟨?_, ?_, ?_, hsnap⟩
    · intro u hu
      by_cases hut : u = t
      · subst hut; exact hmx u htne
      · simp only [setPh, if_neg hut] at hu
        exact hmx u hu
    · intro u e he
      by_cases hut : u = t
      · subst hut
        simp only [setPh, if_pos rfl] at he
        obtain ⟨l, hl⟩ := hcomp nohalf
        cases he
        exact ⟨l, by rw [hl]⟩
      · simp only [setPh, if_neg hut] at he
        exact absurd he (nohalf u e)
    · intro hno
      have := hno t d
      simp only [setPh, if_pos rfl] at this
      exact absurd rfl this
  | draw2 t d hph =>
    have htne : σ.ph t ≠ .idle := by rw [hph]; exact fun h => Phase.noConfusion h
    have onlyt : ∀ u e, σ.ph u = .halfway e → u = t := by
      intro u e he
      exact lock_unique σ hmx u t (by rw [he]; exact fun h => Phase.noConfusion h) htne
    refine ⟨?_, ?_, ?_, hsnap⟩
    · intro u hu
      by_cases hut : u = t
      · subst hut; exact hmx u htne
      · simp only [setPh, if_neg hut] at hu
        exact hmx u hu
    · intro u e he
      by_cases hut : u = t
      · subst hut
        simp only [setPh, if_pos rfl] at he
        exact Phase.noConfusion he
      · simp only [setPh, if_neg hut] at he
        exact absurd (onlyt u e he) hut
    · intro _
      obtain ⟨l, hl⟩ := hhalf t d hph
      refine ⟨l ++ [d], ?_⟩
      rw [applyAll_concat]
      show halfB d σ.canvas = applyCmd d (applyAll l)
      rw [hl]
      rfl
  | publish t d hph =>
    have htne : σ.ph t ≠ .idle := by rw [hph]; exact fun h => Phase.noConfusion h
    have nohalf : ∀ u e, σ.ph u ≠ .halfway e := by
      intro u e he
      have hut : u = t := lock_unique σ hmx u t
        (by rw [he]; exact fun h => Phase.noConfusion h) htne
      subst hut
      rw [hph] at he
      exact Phase.noConfusion he
    have hcv : CompleteCanvas σ.canvas := hcomp nohalf
    refine ⟨?_, ?_, ?_, hcv⟩
    · intro u hu
      by_cases hut : u = t
      · subst hut; exact hmx u htne
      · simp only [setPh, if_neg hut] at hu
        exact hmx u hu
    · intro u e he
      by_cases hut : u = t
      · subst hut
        simp only [setPh, if_pos rfl] at he
        exact Phase.noConfusion he
      · simp only [setPh, if_neg hut] at he
        exact absurd he (nohalf u e)
    · intro _
      exact hcv
  | release t d hph =>
    have htne : σ.ph t ≠ .idle := by rw [hph]; exact fun h => Phase.noConfusion h
    have nohalf : ∀ u e, σ.ph u ≠ .halfway e := by
      intro u e he
      have hut : u = t := lock_unique σ hmx u t
        (by rw [he]; exact fun h => Phase.noConfusion h) htne
      subst hut
      rw [hph] at he
      exact Phase.noConfusion he
    refine ⟨?_, ?_, ?_, hsnap⟩
    · intro u hu
      by_cases hut : u = t
      · subst hut
        simp only [setPh, if_pos rfl] at hu
        exact absurd rfl hu
      · simp only [setPh, if_neg hut] at hu
        have hut2 : u = t := lock_unique σ hmx u t hu htne
        exact absurd hut2 hut
    · intro u e he
      by_cases hut : u = t
      · subst hut
        simp only [setPh, if_pos rfl] at he
        exact Phase.noConfusion he
      · simp only [setPh, if_neg hut] at he
        exact absurd he (nohalf u e)
    · intro _
      exact hcomp nohalf

/-! ## Claim theorems -/

/-- C10: for every x-coordinate outside the four selection bands — `x ≤
250`, `450 ≤ x ≤ 550`, `750 ≤ x ≤ 800`, `1000 ≤ x ≤ 1050`, or `x ≥ 1200`
(band boundaries excluded, all comparisons being strict) —
`update_current_brush` leaves `drawColor`, `current_brush` and
`current_header` unchanged. -/
theorem brush_outside_bands (x : Int) (st : BrushState)
    (h : x ≤ 250 ∨ (450 ≤ x ∧ x ≤ 550) ∨ (750 ≤ x ∧ x ≤ 800) ∨
         (1000 ≤ x ∧ x ≤ 1050) ∨ 1200 ≤ x) :
    updateCurrentBrush x st = st := by
  have h1 : ¬(250 < x ∧ x < 450) := by omega
  have h2 : ¬(550 < x ∧ x < 750) := by omega
  have h3 : ¬(800 < x ∧ x < 1000) := by omega
  have h4 : ¬(1050 < x ∧ x < 1200) := by omega
  simp [updateCurrentBrush, h1, h2, h3, h4]

/-- C10 witness: `x = 500` lies between the pink and blue bands and
changes nothing. -/
theorem brush_outside_bands_witness :
    ((500 : Int) ≤ 250 ∨ ((450 : Int) ≤ 500 ∧ (500 : Int) ≤ 550) ∨
      ((750 : Int) ≤ 500 ∧ (500 : Int) ≤ 800) ∨
      ((1000 : Int) ≤ 500 ∧ (500 : Int) ≤ 1050) ∨ (1200 : Int) ≤ 500) ∧
    updateCurrentBrush 500 ⟨⟨189, 189, 103⟩, .pink, .pink⟩ =
      ⟨⟨189, 189, 103⟩, .pink, .pink⟩ :=
  ⟨by omega, brush_outside_bands 500 ⟨⟨189, 189, 103⟩, .pink, .pink⟩ (by omega)⟩

/-- C2 (counterexample): the claim says every `connect_to_server`
invocation against a refusing endpoint makes exactly 3 attempts, but
`retry_count` persists across invocations: after a startup sequence whose
first two attempts fail and whose third succeeds (`retry_count = 2`), a
later invocation against a refusing endpoint makes only one attempt. -/
theorem connect_exactly_three_cex :
    (connectFrom (fun n => n == 2) 0).success = true ∧
    (connectFrom (fun n => n == 2) 0).retryCount = 2 ∧
    (connectFrom (fun _ => false) 2).attempts = 1 ∧
    (connectFrom (fun _ => false) 2).attempts ≠ 3 := by
  refine ⟨rfl, rfl, rfl, by decide⟩

/-- C2 (amended): an invocation of `connect_to_server` entered with
accumulated `retry_count = rc ≤ max_retries` against an endpoint refusing
every handshake makes `max_retries - rc` connection attempts — exactly 3
for the startup invocation, which enters with `rc = 0` — each failed
attempt followed by one fixed 1-second backoff sleep, and reports failure
by returning `False` (the embedding is a total function: no exception
escapes). -/
theorem connect_allRefused (rc : Nat) (h : rc ≤ maxRetries) :
    connectFrom (fun _ => false) rc =
      ⟨false, maxRetries, maxRetries - rc, maxRetries - rc⟩ := by
  unfold connectFrom
  rw [connectGo_allFail]
  have hrc : rc + (maxRetries - rc) = maxRetries := by omega
  rw [hrc]

/-- C2 witness: the startup invocation (`retry_count = 0`) makes exactly
3 failed attempts and 3 backoff sleeps and returns `False`. -/
theorem connect_allRefused_witness :
    0 ≤ maxRetries ∧
    connectFrom (fun _ => false) 0 = ⟨false, 3, 3, 3⟩ :=
  ⟨Nat.zero_le _, connect_allRefused 0 (Nat.zero_le _)⟩

/-- C9: the retry counter is incremented once per failed attempt
(`retryCount` grows by exactly the number of backoff sleeps, one per
failure) and no session event ever decreases it, so the failures summed
over all `connect_to_server` invocations of a session equal the final
counter, which never exceeds `max_retries = 3`; and an invocation entered
with the counter already at 3 returns `False` immediately with zero
attempts. -/
theorem retry_counter_global :
    (∀ (o : Nat → Bool) (ops : List Op),
        (runSession o ops).retryCount ≤ maxRetries) ∧
    (∀ (s : Session) (op : Op), s.retryCount ≤ (step s op).retryCount) ∧
    (∀ (o : Nat → Bool) (rc : Nat),
        (connectFrom o rc).retryCount = rc + (connectFrom o rc).sleeps) ∧
    (∀ o : Nat → Bool, connectFrom o maxRetries = ⟨false, maxRetries, 0, 0⟩) := by
  refine ⟨?_, ?_, ?_, ?_⟩
  · intro o ops
    have hstart : (startSession o).retryCount ≤ maxRetries := by
      have := connectFrom_bounds o 0
      simp [startSession]
      omega
    have key : ∀ (l : List Op) (s : Session),
        s.retryCount ≤ maxRetries → (l.foldl step s).retryCount ≤ maxRetries := by
      intro l
      induction l with
      | nil => intro s hs; exact hs
      | cons op rest ih =>
        intro s hs
        exact ih (step s op) ((step_retryCount s op).2 hs)
    exact key ops (startSession o) hstart
  · intro s op
    exact (step_retryCount s op).1
  · intro o rc
    exact (connectGo_spec o (maxRetries - rc) rc).1
  · intro o
    rfl

/-- C5 (counterexample): two strokes that differ only in their timestamp
produce different wire records that decode identically — the receive path
never reads the `timestamp` field, so decoding does not recover the
timestamp and no re-encoding of the decoded fields can reproduce every
encoder-produced record. -/
theorem codec_roundtrip_cex :
    encode ⟨100, 100, 200, 100, ⟨0, 0, 255⟩, 15, "1.5"⟩ ≠
      encode ⟨100, 100, 200, 100, ⟨0, 0, 255⟩, 15, "2.5"⟩ ∧
    decode (encode ⟨100, 100, 200, 100, ⟨0, 0, 255⟩, 15, "1.5"⟩) =
      decode (encode ⟨100, 100, 200, 100, ⟨0, 0, 255⟩, 15, "2.5"⟩) := by
  constructor
  · intro h
    simp [encode] at h
  · rfl

/-- C5 (amended): decoding an encoded stroke recovers exactly its
endpoints, color triple and thickness (not the timestamp, which the
receive path discards), and re-encoding those decoded fields together
with the original timestamp reproduces the wire record. -/
theorem codec_partial_roundtrip (s : Stroke) :
    decode (encode s) = some s.cmd ∧
    encode (strokeOf s.cmd s.timestamp) = encode s :=
  ⟨decode_encode s, rfl⟩

/-- C6: for every canvas state and every stroke, pushing the stroke
through the remote path (encode, decode, `cv2.line` in
`receive_drawings`) mutates the raster exactly as the local path
(`cv2.line` in `send_drawing`) does: the stroke's origin has no effect on
the pixels. -/
theorem origin_no_effect (c : Canvas) (s : Stroke) :
    remoteApply c (encode s) = localApply c s := by
  simp [remoteApply, decode_encode, localApply, Stroke.cmd]

/-- C7 (counterexample): the claim says a canvas pixel with luminance at
most 50 is transparent — the live pixel shows through — but the composite
ORs the canvas pixel in: for canvas pixel `(40,40,40)` (gray value 40)
over live pixel `(1,2,4)` the result is `(41,42,44)`, not the live
pixel. -/
theorem compose_transparent_cex :
    gray ⟨40, 40, 40⟩ ≤ 50 ∧
    composePix ⟨1, 2, 4⟩ ⟨40, 40, 40⟩ ≠ ⟨1, 2, 4⟩ := by
  decide

/-- C7 (amended): compositing is a deterministic per-pixel function of
the live frame and the snapshot (a pure function in the embedding —
neither input array is written): a canvas pixel with gray value above the
threshold 50 replaces the live pixel exactly; one at or below the
threshold contributes by bitwise OR with the live pixel — so the live
pixel shows through exactly when the canvas pixel is zero (untouched or
erased canvas), not for every sub-threshold pixel. -/
theorem compose_pixel_rule (live cp : Pixel)
    (hb : live.b < 256) (hg : live.g < 256) (hr : live.r < 256) :
    (50 < gray cp → composePix live cp = cp) ∧
    (gray cp ≤ 50 →
      composePix live cp = ⟨live.b ||| cp.b, live.g ||| cp.g, live.r ||| cp.r⟩) ∧
    (cp = blackPix → composePix live cp = live) ∧
    (∀ (f c : Canvas) (x y : Int), compose f c x y = composePix (f x y) (c x y)) := by
  have hand : ∀ n : Nat, n < 256 → n &&& 255 = n := by
    intro n hn
    have h2 : n &&& (2 ^ 8 - 1) = n := Nat.and_pow_two_sub_one_of_lt_two_pow (by omega)
    norm_num at h2
    exact h2
  refine ⟨?_, ?_, ?_, fun f c x y => rfl⟩
  · intro hgt
    cases cp with
    | mk b g r => simp [composePix, if_pos hgt]
  · intro hle
    have : ¬(50 < gray cp) := by omega
    simp [composePix, if_neg this, hand live.b hb, hand live.g hg, hand live.r hr]
  · intro hblack
    subst hblack
    have hgr : ¬(50 < gray blackPix) := by decide
    cases live with
    | mk b g r =>
      simp only [composePix, blackPix]
      simp [Nat.or_zero, gray, hand b hb, hand g hg, hand r hr]

/-- C4 (counterexample): the claim says a color triple of the wrong
shape yields no stroke, but `cv2.line` accepts any numeric sequence of
at most four elements as a color, padding missing channels with 0: a
connected session receiving a draw record whose color is the two-element
list `[255, 0]` does apply a stroke — the canvas and the published
snapshot change at the segment's origin from black to `(255, 0, 0)`. -/
theorem recv_wrong_shape_draws_cex :
    (step (startSession (fun _ => true))
        (.recvMsg (.jobj [("type", .jstr "draw"), ("x1", .jint 0),
                          ("y1", .jint 0), ("x2", .jint 10), ("y2", .jint 0),
                          ("color", .jarr [.jint 255, .jint 0]),
                          ("thickness", .jint 5)]))).canvas 0 0 =
      ⟨255, 0, 0⟩ ∧
    (step (startSession (fun _ => true))
        (.recvMsg (.jobj [("type", .jstr "draw"), ("x1", .jint 0),
                          ("y1", .jint 0), ("x2", .jint 10), ("y2", .jint 0),
                          ("color", .jarr [.jint 255, .jint 0]),
                          ("thickness", .jint 5)]))).display 0 0 =
      ⟨255, 0, 0⟩ ∧
    (startSession (fun _ => true)).canvas 0 0 = ⟨0, 0, 0⟩ ∧
    (startSession (fun _ => true)).display 0 0 = ⟨0, 0, 0⟩ := by
  refine ⟨rfl, rfl, rfl, rfl⟩

/-- C4 (amended): an inbound message that decodes to no stroke under the
receive path's actual acceptance rules — unparseable bytes, a non-object
payload, a type tag other than `"draw"`, a required field absent, an
endpoint coordinate or thickness that is not integer-like, or a color
that is not a numeric sequence of at most four elements — leaves the
whole session state unchanged: no canvas mutation, no snapshot
republish, and the connection is not torn down.  (A wrong-shaped but
numeric color sequence of at most four elements IS applied, missing
channels padded with 0 — see the counterexample.) -/
theorem recv_malformed_no_effect (s : Session) (j : Json)
    (h : decode j = none) :
    step s (.recvMsg j) = s ∧
    (step s (.recvMsg j)).canvas = s.canvas ∧
    (step s (.recvMsg j)).display = s.display ∧
    (step s (.recvMsg j)).connected = s.connected ∧
    step s .recvUnparseable = s := by
  have hstep : step s (.recvMsg j) = s := by
    by_cases hg : s.wsOpen ∧ s.connected
    · simp [step, hg, h]
    · simp [step, hg]
  exact ⟨hstep, by rw [hstep], by rw [hstep], by rw [hstep], rfl⟩

/-- C4 witness: a connected session drops a draw-tagged record whose
`color` field is missing. -/
theorem recv_malformed_no_effect_witness :
    decode (.jobj [("type", .jstr "draw"), ("x1", .jint 1), ("y1", .jint 2),
                   ("x2", .jint 3), ("y2", .jint 4),
                   ("thickness", .jint 15)]) = none ∧
    step (startSession (fun _ => true))
        (.recvMsg (.jobj [("type", .jstr "draw"), ("x1", .jint 1),
                          ("y1", .jint 2), ("x2", .jint 3), ("y2", .jint 4),
                          ("thickness", .jint 15)])) =
      startSession (fun _ => true) :=
  ⟨rfl,
   (recv_malformed_no_effect (startSession (fun _ => true))
      (.jobj [("type", .jstr "draw"), ("x1", .jint 1), ("y1", .jint 2),
              ("x2", .jint 3), ("y2", .jint 4), ("thickness", .jint 15)])
      rfl).1⟩

/-- C1: when the startup connection sequence exhausts its retries
(`connect_to_server` returns `False`, so `local_mode` is set), then after
any sequence of session events `local_mode` is still set, and every
`send_drawing` call still draws the segment into the canvas and
republishes the snapshot while handing nothing to the network (the sent
trace is unchanged — no record is encoded or dispatched). -/
theorem localmode_send_no_network (o : Nat → Bool)
    (h : (connectFrom o 0).success = false) (ops : List Op) :
    (runSession o ops).localMode = true ∧
    ∀ (x1 y1 x2 y2 : Int) (col : Pixel) (th : Int) (ts : String),
      (step (runSession o ops) (.send x1 y1 x2 y2 col th ts)).canvas =
        cvLine (runSession o ops).canvas x1 y1 x2 y2 col th ∧
      (step (runSession o ops) (.send x1 y1 x2 y2 col th ts)).display =
        cvLine (runSession o ops).canvas x1 y1 x2 y2 col th ∧
      (step (runSession o ops) (.send x1 y1 x2 y2 col th ts)).sent =
        (runSession o ops).sent := by
  have hlm : (runSession o ops).localMode = true := by
    unfold runSession
    rw [foldl_localMode]
    simp [startSession, h]
  refine ⟨hlm, ?_⟩
  intro x1 y1 x2 y2 col th ts
  refine ⟨rfl, rfl, ?_⟩
  simp [step, sendDrawing, hlm]

/-- C1 witness: an all-refusing endpoint at startup; the first
`send_drawing` afterwards dispatches nothing. -/
theorem localmode_send_no_network_witness :
    (connectFrom (fun _ => false) 0).success = false ∧
    (runSession (fun _ => false) []).localMode = true ∧
    (step (runSession (fun _ => false) [])
        (.send 100 100 200 100 ⟨189, 189, 103⟩ 15 "1.5")).sent =
      (runSession (fun _ => false) []).sent :=
  ⟨by decide,
   (localmode_send_no_network (fun _ => false) (by decide) []).1,
   ((localmode_send_no_network (fun _ => false) (by decide) []).2
      100 100 200 100 ⟨189, 189, 103⟩ 15 "1.5").2.2⟩

/-- C3: whenever the receive loop observes the connection closing while
connected, the session clears `connected` and immediately re-invokes
`connect_to_server`: the post-state is exactly the reconnect outcome
(connected again only if that invocation succeeds), the new retry
sequence makes at most `max_retries = 3` attempts (only
`max_retries - retry_count` remain, the counter being cumulative), and
`local_mode` is not entered by this or any other mid-session event, for
any number of disconnects. -/
theorem closed_reconnect (s : Session) (o : Nat → Bool)
    (hw : s.wsOpen = true) (hc : s.connected = true) :
    step s (.recvClosed o) =
      { s with connected := (connectFrom o s.retryCount).success,
               wsOpen := s.wsOpen || (connectFrom o s.retryCount).success,
               retryCount := (connectFrom o s.retryCount).retryCount } ∧
    (connectFrom o s.retryCount).attempts ≤ maxRetries ∧
    (step s (.recvClosed o)).localMode = s.localMode ∧
    ∀ (ops : List Op) (s0 : Session), (ops.foldl step s0).localMode = s0.localMode := by
  have hg : s.wsOpen ∧ s.connected := ⟨hw, hc⟩
  refine ⟨by simp [step, hg], ?_, step_localMode s _, foldl_localMode⟩
  have := connectFrom_bounds o s.retryCount
  omega

/-- C3 witness: a session connected at startup observes a disconnect
against a now-refusing endpoint. -/
theorem closed_reconnect_witness :
    (startSession (fun _ => true)).wsOpen = true ∧
    (startSession (fun _ => true)).connected = true ∧
    (step (startSession (fun _ => true)) (.recvClosed (fun _ => false))).localMode =
      (startSession (fun _ => true)).localMode :=
  ⟨rfl, rfl,
   (closed_reconnect (startSession (fun _ => true)) (fun _ => false)
      rfl rfl).2.2.1⟩

/-- C8: under every interleaving of the drawing loop and the receive
loop, canvas mutation is atomic with respect to readers: a task inside
its `drawLock` critical section holds the lock exclusively, and every
reachable published snapshot is the canvas after a whole number of
completely applied strokes — no reader of the snapshot ever observes a
half-drawn segment. -/
theorem applyStroke_atomic (σ : LockState) (h : ReachL σ) :
    (∀ t, σ.ph t ≠ .idle → σ.lock = some t) ∧ CompleteCanvas σ.snap := by
  have hinv : LockInv σ := by
    induction h with
    | refl => exact lockInv_init
    | tail hsteps hstep ih => exact lockInv_step _ _ hstep ih
  exact ⟨hinv.1, hinv.2.2.2⟩

/-- C8 witness: the initial shared state is reachable and its snapshot is
complete. -/
theorem applyStroke_atomic_witness :
    ReachL initLock ∧
    ((∀ t, initLock.ph t ≠ .idle → initLock.lock = some t) ∧
      CompleteCanvas initLock.snap) :=
  ⟨Relation.ReflTransGen.refl,
   applyStroke_atomic initLock Relation.ReflTransGen.refl⟩

/-- C7 witness: a bright canvas pixel replaces the live pixel; a black
canvas pixel lets the live pixel through. -/
theorem compose_pixel_rule_witness :
    ((1 : Nat) < 256 ∧ (2 : Nat) < 256 ∧ (4 : Nat) < 256 ∧
      50 < gray ⟨200, 200, 200⟩) ∧
    composePix ⟨1, 2, 4⟩ ⟨200, 200, 200⟩ = ⟨200, 200, 200⟩ ∧
    composePix ⟨1, 2, 4⟩ blackPix = ⟨1, 2, 4⟩ :=
  ⟨by decide,
   (compose_pixel_rule ⟨1, 2, 4⟩ ⟨200, 200, 200⟩ (by decide) (by decide)
      (by decide)).1 (by decide),
   ((compose_pixel_rule ⟨1, 2, 4⟩ blackPix (by decide) (by decide)
      (by decide)).2.2.1 rfl)⟩

end VP

